import Mathlib

/-!
Verification of the COVID policy decision model
(`vaccine_mandate_model.py`, class `VaccineMandateModel`).

The parameter table `self.params` is embedded as an insertion-ordered
association list from string keys to real numbers, with Python's dict
semantics for subscript read, subscript assignment and membership test.
Python floats are idealised as real numbers; the one place the source can
leave the reals — `lives_saved ** 0.9` with a negative base, which Python
evaluates as a complex principal power — is captured by the `PyNum` type
(a Python number is either a float or a complex), and the runtime errors
the arithmetic can raise are captured by `PyErr` and `Except`.
-/

namespace VaccineMandateModel

/-- A Python `dict` from parameter names to numeric values: an
insertion-ordered association list (`self.params`). -/
abbrev Dict := List (String × ℝ)

/-- Python `d[k]` read, as an `Option` (`none` models the `KeyError` raise). -/
def lookupP : Dict → String → Option ℝ
  | [], _ => none
  | (ka, v) :: rest, k => if ka = k then some v else lookupP rest k

/-- Python `d[k] = v`: overwrite in place when the key exists (keeping its
position), append at the end otherwise. -/
def dsetP : Dict → String → ℝ → Dict
  | [], k, v => [(k, v)]
  | (ka, va) :: rest, k, v =>
    if ka = k then (k, v) :: rest else (ka, va) :: dsetP rest k v

/-- The ordered key list of the dict (`list(d.keys())`). -/
def keysOf (p : Dict) : List String := p.map Prod.fst

/-- Read of one of the eight fixed parameter keys inside the `calculate_*`
helpers.  The source raises `KeyError` on a missing key; every verified
operation is applied to parameter tables containing all eight keys (the
key-set invariant proved below), where the default is never consulted. -/
noncomputable def pget (p : Dict) (k : String) : ℝ := (lookupP p k).getD 0

/-- The default parameter table built by `__init__`. -/
noncomputable def defaultParams : Dict :=
  [("baseline_deaths", 1000),
   ("vaccine_efficacy", 0.9),
   ("voluntary_adoption", 0.6),
   ("mandate_adoption", 0.9),
   ("value_of_life", 10000000),
   ("freedom_value", 400000000),
   ("enforcement_cost", 150000000),
   ("risk_aversion", 1.0)]

/-- Runtime errors the translated operations can raise. -/
inductive PyErr where
  | typeError : PyErr
  | zeroDivisionError : PyErr
  | keyError : PyErr
  deriving DecidableEq

/-- A Python number: a float (idealised as a real) or a complex. -/
inductive PyNum where
  | real (x : ℝ) : PyNum
  | cplx (z : ℂ) : PyNum

namespace PyNum

/-- Add a float on the right (`a + c`); a complex stays complex. -/
def addR : PyNum → ℝ → PyNum
  | real a, c => real (a + c)
  | cplx z, c => cplx (z + (c : ℂ))

/-- Multiply by a float on the right (`a * c`). -/
def mulR : PyNum → ℝ → PyNum
  | real a, c => real (a * c)
  | cplx z, c => cplx (z * (c : ℂ))

/-- Unary minus. -/
def neg : PyNum → PyNum
  | real a => real (-a)
  | cplx z => cplx (-z)

/-- Subtraction (`a - b`). -/
def sub : PyNum → PyNum → PyNum
  | real a, real b => real (a - b)
  | real a, cplx w => cplx ((a : ℂ) - w)
  | cplx z, real b => cplx (z - (b : ℂ))
  | cplx z, cplx w => cplx (z - w)

end PyNum

/-- `b` is an integral value, the condition under which Python keeps a
negative float base raised to `b` in the reals. -/
def isIntR (b : ℝ) : Prop := ∃ n : ℤ, (n : ℝ) = b

open Classical in
/-- Python `a ** b` on floats: `0.0` to a negative power raises
`ZeroDivisionError`; a negative base to a non-integral power is the complex
principal power; otherwise the real power (`Real.rpow`, which agrees with
Python on every remaining case, including a negative base to an integral
power and `0.0 ** 0.0 == 1.0`). -/
noncomputable def pyPow (a b : ℝ) : Except PyErr PyNum :=
  if a = 0 ∧ b < 0 then .error .zeroDivisionError
  else if a < 0 ∧ ¬ isIntR b then .ok (.cplx ((a : ℂ) ^ (b : ℂ)))
  else .ok (.real (a ^ b))

/-- Python `a > b` on numbers: defined on floats, raises `TypeError` as soon
as either side is complex. -/
noncomputable def pyGT : PyNum → PyNum → Except PyErr Bool
  | .real a, .real b => .ok (if b < a then true else false)
  | _, _ => .error .typeError

/-- `calculate_deaths`: expected deaths at the given adoption rate. -/
noncomputable def calculate_deaths (p : Dict) (adoption_rate : ℝ) : ℝ :=
  let vaccinated := adoption_rate
  let unvaccinated := 1 - adoption_rate
  let vaccinated_deaths :=
    pget p "baseline_deaths" * vaccinated * (1 - pget p "vaccine_efficacy")
  let unvaccinated_deaths := pget p "baseline_deaths" * unvaccinated
  vaccinated_deaths + unvaccinated_deaths

/-- `calculate_lives_saved`: lives saved compared to no vaccination. -/
noncomputable def calculate_lives_saved (p : Dict) (adoption_rate : ℝ) : ℝ :=
  let deaths_with_adoption := calculate_deaths p adoption_rate
  let deaths_without_vaccination := pget p "baseline_deaths"
  deaths_without_vaccination - deaths_with_adoption

/-- `calculate_freedom_utility`. -/
noncomputable def calculate_freedom_utility (p : Dict) (is_mandate : Bool) : ℝ :=
  if is_mandate then
    let population : ℝ := 1.0;
    -pget p "freedom_value" * population
  else 0

/-- `calculate_enforcement_costs`. -/
noncomputable def calculate_enforcement_costs (p : Dict) (is_mandate : Bool) : ℝ :=
  if is_mandate then -pget p "enforcement_cost" else 0

/-- `calculate_life_utility`: `lives_saved ** 0.9 * value_of_life`.  The
power is Python `**`, so a negative `lives_saved` silently becomes a complex
number rather than an error. -/
noncomputable def calculate_life_utility (p : Dict) (is_mandate : Bool) :
    Except PyErr PyNum := do
  let lives_saved :=
    if is_mandate then calculate_lives_saved p (pget p "mandate_adoption")
    else calculate_lives_saved p (pget p "voluntary_adoption")
  let diminishing_factor : ℝ := 0.9
  let effective_lives_saved ← pyPow lives_saved diminishing_factor
  pure (effective_lives_saved.mulR (pget p "value_of_life"))

/-- `calculate_total_utility`: sum the three utilities, then risk-adjust.
The source's `total >= 0` comparison raises `TypeError` when `total` is
complex, and `total ** risk_aversion` raises `ZeroDivisionError` when
`total == 0` and `risk_aversion < 0`. -/
noncomputable def calculate_total_utility (p : Dict) (is_mandate : Bool) :
    Except PyErr PyNum := do
  let life_utility ← calculate_life_utility p is_mandate
  let freedom_utility := calculate_freedom_utility p is_mandate
  let enforcement_costs := calculate_enforcement_costs p is_mandate
  let total := (life_utility.addR freedom_utility).addR enforcement_costs
  match total with
  | .cplx _ => throw .typeError
  | .real t =>
    if 0 ≤ t then pyPow t (pget p "risk_aversion")
    else do
      let r ← pyPow (-t) (pget p "risk_aversion")
      pure r.neg

/-- `make_decision`, in state-passing form: the method reads `self.params`
and never assigns to it, so every branch returns the incoming table
unchanged next to its result (or the propagated error). -/
noncomputable def make_decisionM (p : Dict) :
    Dict × Except PyErr (Bool × PyNum × PyNum) :=
  match calculate_total_utility p true with
  | .error e => (p, .error e)
  | .ok utility_with_mandate =>
    match calculate_total_utility p false with
    | .error e => (p, .error e)
    | .ok utility_without_mandate =>
      match pyGT utility_with_mandate utility_without_mandate with
      | .error e => (p, .error e)
      | .ok gt =>
        if gt then (p, .ok (true, utility_with_mandate, utility_without_mandate))
        else (p, .ok (false, utility_with_mandate, utility_without_mandate))

/-- `set_parameters(**kwargs)`: overwrite recognized keys, collect a warning
for each unrecognized key (the printed messages, as a list, in iteration
order), never aborting the remaining updates. -/
noncomputable def set_parameters : Dict → List (String × ℝ) → Dict × List String
  | p, [] => (p, [])
  | p, (key, value) :: rest =>
    if (lookupP p key).isSome then set_parameters (dsetP p key value) rest
    else
      let r := set_parameters p rest
      (r.1, key :: r.2)

/-- One row of a 1-D sweep result. -/
structure SensRow where
  value : ℝ
  decision : String
  utility_mandate : PyNum
  utility_voluntary : PyNum
  utility_difference : PyNum

/-- The `for value in values` loop of `sensitivity_analysis`, threading the
parameter table; an error from `make_decision` aborts the loop with the
table as mutated so far. -/
noncomputable def sensLoop (parameter : String) :
    Dict → List ℝ → Dict × Except PyErr (List SensRow)
  | p, [] => (p, .ok [])
  | p, value :: rest =>
    let p1 := dsetP p parameter value
    match make_decisionM p1 with
    | (p2, .error e) => (p2, .error e)
    | (p2, .ok (decision, um, uv)) =>
      match sensLoop parameter p2 rest with
      | (pf, .error e) => (pf, .error e)
      | (pf, .ok rows) =>
        (pf, .ok (⟨value, if decision then "Mandate" else "Voluntary",
                   um, uv, um.sub uv⟩ :: rows))

/-- `sensitivity_analysis`: read the original value (`KeyError` when the
name is unrecognized), run the sweep, and restore the original value only
on normal completion — the source has no `try/finally`. -/
noncomputable def sensitivity_analysis (p : Dict) (parameter : String)
    (values : List ℝ) : Dict × Except PyErr (List SensRow) :=
  match lookupP p parameter with
  | none => (p, .error .keyError)
  | some original_value =>
    match sensLoop parameter p values with
    | (pf, .error e) => (pf, .error e)
    | (pf, .ok rows) => (dsetP pf parameter original_value, .ok rows)

/-- One row of a 2-D sweep result (`{param1: v1, param2: v2, decision}`,
with the two parameter-named columns rendered positionally). -/
structure TwoWayRow where
  value1 : ℝ
  value2 : ℝ
  decision : String

/-- The inner `for val2 in values2` loop of `two_way_analysis`: both
parameters are assigned before each `make_decision` call. -/
noncomputable def twoInner (param1 param2 : String) (val1 : ℝ) :
    Dict → List ℝ → Dict × Except PyErr (List TwoWayRow)
  | p, [] => (p, .ok [])
  | p, val2 :: rest =>
    let pa := dsetP p param1 val1
    let pb := dsetP pa param2 val2
    match make_decisionM pb with
    | (p2, .error e) => (p2, .error e)
    | (p2, .ok (decision, _, _)) =>
      match twoInner param1 param2 val1 p2 rest with
      | (pf, .error e) => (pf, .error e)
      | (pf, .ok rows) =>
        (pf, .ok (⟨val1, val2, if decision then "Mandate" else "Voluntary"⟩ :: rows))

/-- The outer `for val1 in values1` loop of `two_way_analysis`. -/
noncomputable def twoOuter (param1 param2 : String) (values2 : List ℝ) :
    Dict → List ℝ → Dict × Except PyErr (List TwoWayRow)
  | p, [] => (p, .ok [])
  | p, val1 :: rest =>
    match twoInner param1 param2 val1 p values2 with
    | (p2, .error e) => (p2, .error e)
    | (p2, .ok rows1) =>
      match twoOuter param1 param2 values2 p2 rest with
      | (pf, .error e) => (pf, .error e)
      | (pf, .ok rows2) => (pf, .ok (rows1 ++ rows2))

/-- `two_way_analysis`: read both originals (`KeyError` when either name is
unrecognized, before any mutation), run the nested sweep, and restore both
originals only on normal completion. -/
noncomputable def two_way_analysis (p : Dict) (param1 : String)
    (values1 : List ℝ) (param2 : String) (values2 : List ℝ) :
    Dict × Except PyErr (List TwoWayRow) :=
  match lookupP p param1 with
  | none => (p, .error .keyError)
  | some original_value1 =>
    match lookupP p param2 with
    | none => (p, .error .keyError)
    | some original_value2 =>
      match twoOuter param1 param2 values2 p values1 with
      | (pf, .error e) => (pf, .error e)
      | (pf, .ok rows) =>
        (dsetP (dsetP pf param1 original_value1) param2 original_value2, .ok rows)

/-- Parameters that make the two total utilities exactly equal: efficacy 0
makes every lives-saved value 0, and freedom value and enforcement cost 0
remove the remaining asymmetry between the two branches. -/
noncomputable def tieParams : Dict :=
  [("baseline_deaths", 1000),
   ("vaccine_efficacy", 0),
   ("voluntary_adoption", 0.6),
   ("mandate_adoption", 0.9),
   ("value_of_life", 10000000),
   ("freedom_value", 0),
   ("enforcement_cost", 0),
   ("risk_aversion", 1.0)]

/-- The default parameters with a negative vaccine efficacy, which drives
every lives-saved value negative. -/
noncomputable def negEffParams : Dict :=
  dsetP defaultParams "vaccine_efficacy" (-0.5)

/-- The default parameters with `baseline_deaths` set to `0`. -/
noncomputable def zeroBaselineParams : Dict :=
  dsetP defaultParams "baseline_deaths" 0

@[simp] theorem keysOf_nil : keysOf [] = [] := rfl

@[simp] theorem keysOf_cons (ka : String) (va : ℝ) (rest : Dict) :
    keysOf ((ka, va) :: rest) = ka :: keysOf rest := rfl

theorem lookupP_dsetP_self (p : Dict) (k : String) (v : ℝ) :
    lookupP (dsetP p k v) k = some v := by
  induction p with
  | nil => simp [dsetP, lookupP]
  | cons kv rest ih =>
    obtain ⟨ka, va⟩ := kv
    by_cases h : ka = k <;> simp [dsetP, lookupP, h, ih]

theorem lookupP_dsetP_ne (p : Dict) (k ka : String) (v : ℝ) (h : ka ≠ k) :
    lookupP (dsetP p k v) ka = lookupP p ka := by
  induction p with
  | nil => simp [dsetP, lookupP, Ne.symm h]
  | cons kv rest ih =>
    obtain ⟨kb, vb⟩ := kv
    by_cases hb : kb = k
    · subst hb
      simp [dsetP, lookupP, Ne.symm h, ih]
    · by_cases hk : kb = ka <;> simp [dsetP, lookupP, hb, hk, h, ih]

theorem dsetP_dsetP_same (p : Dict) (k : String) (v w : ℝ) :
    dsetP (dsetP p k v) k w = dsetP p k w := by
  induction p with
  | nil => simp [dsetP]
  | cons kv rest ih =>
    obtain ⟨ka, va⟩ := kv
    by_cases h : ka = k <;> simp [dsetP, h, ih]

theorem dsetP_self_of_lookupP (p : Dict) (k : String) (v : ℝ)
    (h : lookupP p k = some v) : dsetP p k v = p := by
  induction p with
  | nil => simp [lookupP] at h
  | cons kv rest ih =>
    obtain ⟨ka, va⟩ := kv
    by_cases hk : ka = k
    · subst hk
      simp [lookupP] at h
      simp [dsetP, h]
    · simp [lookupP, hk] at h
      simp [dsetP, hk, ih h]

theorem keysOf_dsetP_of_isSome (p : Dict) (k : String) (v : ℝ)
    (h : (lookupP p k).isSome) : keysOf (dsetP p k v) = keysOf p := by
  induction p with
  | nil => simp [lookupP] at h
  | cons kv rest ih =>
    obtain ⟨ka, va⟩ := kv
    by_cases hk : ka = k
    · subst hk; simp [dsetP]
    · simp [lookupP, hk] at h
      simp [dsetP, hk, ih h]

theorem isSome_lookupP_iff_mem (p : Dict) (k : String) :
    (lookupP p k).isSome ↔ k ∈ keysOf p := by
  induction p with
  | nil => simp [lookupP, keysOf]
  | cons kv rest ih =>
    obtain ⟨ka, va⟩ := kv
    by_cases h : ka = k
    · subst h; simp [lookupP, keysOf]
    · simp [lookupP, keysOf, h, ih, Ne.symm h]

theorem make_decisionM_fst (p : Dict) : (make_decisionM p).1 = p := by
  unfold make_decisionM
  cases calculate_total_utility p true with
  | error e => rfl
  | ok um =>
    dsimp only
    cases calculate_total_utility p false with
    | error e => rfl
    | ok uv =>
      dsimp only
      cases pyGT um uv with
      | error e => rfl
      | ok g =>
        dsimp only
        cases g <;> rfl

theorem make_decisionM_eta (p : Dict) :
    make_decisionM p = (p, (make_decisionM p).2) :=
  Prod.ext (make_decisionM_fst p) rfl

theorem set_parameters_keysOf (kwargs : List (String × ℝ)) :
    ∀ p : Dict, keysOf (set_parameters p kwargs).1 = keysOf p := by
  induction kwargs with
  | nil => intro p; rfl
  | cons kv rest ih =>
    intro p
    obtain ⟨key, value⟩ := kv
    by_cases h : (lookupP p key).isSome
    · simp only [set_parameters, if_pos h]
      rw [ih, keysOf_dsetP_of_isSome p key value h]
    · simp only [set_parameters, if_neg h]
      exact ih p

theorem sensLoop_keysOf (k : String) (values : List ℝ) :
    ∀ p : Dict, (lookupP p k).isSome →
      keysOf (sensLoop k p values).1 = keysOf p := by
  induction values with
  | nil => intro p _; rfl
  | cons v rest ih =>
    intro p h
    have h1 : keysOf (dsetP p k v) = keysOf p :=
      keysOf_dsetP_of_isSome p k v h
    have h1s : (lookupP (dsetP p k v) k).isSome := by
      rw [lookupP_dsetP_self]; rfl
    simp only [sensLoop]
    rw [make_decisionM_eta (dsetP p k v)]
    cases (make_decisionM (dsetP p k v)).2 with
    | error e => exact h1
    | ok r =>
      obtain ⟨d, um, uv⟩ := r
      dsimp only
      have h2 := ih (dsetP p k v) h1s
      cases hres : sensLoop k (dsetP p k v) rest with
      | mk pf r2 =>
        rw [hres] at h2
        dsimp only at h2
        cases r2 with
        | error e => exact h2.trans h1
        | ok rows => exact h2.trans h1

theorem twoInner_keysOf (k1 k2 : String) (a : ℝ) (values2 : List ℝ) :
    ∀ p : Dict, (lookupP p k1).isSome → (lookupP p k2).isSome →
      keysOf (twoInner k1 k2 a p values2).1 = keysOf p := by
  induction values2 with
  | nil => intro p _ _; rfl
  | cons b rest ih =>
    intro p h1 h2
    have hpa : keysOf (dsetP p k1 a) = keysOf p :=
      keysOf_dsetP_of_isSome p k1 a h1
    have h2a : (lookupP (dsetP p k1 a) k2).isSome := by
      rw [isSome_lookupP_iff_mem, hpa, ← isSome_lookupP_iff_mem]; exact h2
    have hpb : keysOf (dsetP (dsetP p k1 a) k2 b) = keysOf p := by
      rw [keysOf_dsetP_of_isSome _ k2 b h2a, hpa]
    have h1b : (lookupP (dsetP (dsetP p k1 a) k2 b) k1).isSome := by
      rw [isSome_lookupP_iff_mem, hpb, ← isSome_lookupP_iff_mem]; exact h1
    have h2b : (lookupP (dsetP (dsetP p k1 a) k2 b) k2).isSome := by
      rw [lookupP_dsetP_self]; rfl
    simp only [twoInner]
    rw [make_decisionM_eta (dsetP (dsetP p k1 a) k2 b)]
    cases (make_decisionM (dsetP (dsetP p k1 a) k2 b)).2 with
    | error e => exact hpb
    | ok r =>
      obtain ⟨d, um, uv⟩ := r
      dsimp only
      have hrec := ih (dsetP (dsetP p k1 a) k2 b) h1b h2b
      cases hres : twoInner k1 k2 a (dsetP (dsetP p k1 a) k2 b) rest with
      | mk pf r2 =>
        rw [hres] at hrec
        dsimp only at hrec
        cases r2 with
        | error e => exact hrec.trans hpb
        | ok rows => exact hrec.trans hpb

theorem twoOuter_keysOf (k1 k2 : String) (values2 : List ℝ) (values1 : List ℝ) :
    ∀ p : Dict, (lookupP p k1).isSome → (lookupP p k2).isSome →
      keysOf (twoOuter k1 k2 values2 p values1).1 = keysOf p := by
  induction values1 with
  | nil => intro p _ _; rfl
  | cons a rest ih =>
    intro p h1 h2
    have hin := twoInner_keysOf k1 k2 a values2 p h1 h2
    simp only [twoOuter]
    cases hres : twoInner k1 k2 a p values2 with
    | mk p2 r1 =>
      rw [hres] at hin
      dsimp only at hin
      cases r1 with
      | error e => exact hin
      | ok rows1 =>
        dsimp only
        have h1p : (lookupP p2 k1).isSome := by
          rw [isSome_lookupP_iff_mem, hin, ← isSome_lookupP_iff_mem]; exact h1
        have h2p : (lookupP p2 k2).isSome := by
          rw [isSome_lookupP_iff_mem, hin, ← isSome_lookupP_iff_mem]; exact h2
        have hrec := ih p2 h1p h2p
        cases hres2 : twoOuter k1 k2 values2 p2 rest with
        | mk pf r2 =>
          rw [hres2] at hrec
          dsimp only at hrec
          cases r2 with
          | error e => exact hrec.trans hin
          | ok rows2 => exact hrec.trans hin

theorem sensitivity_analysis_keysOf (p : Dict) (k : String) (values : List ℝ) :
    keysOf (sensitivity_analysis p k values).1 = keysOf p := by
  unfold sensitivity_analysis
  cases h : lookupP p k with
  | none => rfl
  | some v0 =>
    have hs : (lookupP p k).isSome := by rw [h]; rfl
    have hloop := sensLoop_keysOf k values p hs
    cases hres : sensLoop k p values with
    | mk pf r =>
      rw [hres] at hloop
      dsimp only at hloop
      cases r with
      | error e => exact hloop
      | ok rows =>
        dsimp only
        have hpf : (lookupP pf k).isSome := by
          rw [isSome_lookupP_iff_mem, hloop, ← isSome_lookupP_iff_mem]; exact hs
        rw [keysOf_dsetP_of_isSome pf k v0 hpf]
        exact hloop

theorem two_way_analysis_keysOf (p : Dict) (k1 k2 : String)
    (values1 values2 : List ℝ) :
    keysOf (two_way_analysis p k1 values1 k2 values2).1 = keysOf p := by
  unfold two_way_analysis
  cases h1 : lookupP p k1 with
  | none => rfl
  | some v1 =>
    cases h2 : lookupP p k2 with
    | none => rfl
    | some v2 =>
      have hs1 : (lookupP p k1).isSome := by rw [h1]; rfl
      have hs2 : (lookupP p k2).isSome := by rw [h2]; rfl
      have hloop := twoOuter_keysOf k1 k2 values2 values1 p hs1 hs2
      cases hres : twoOuter k1 k2 values2 p values1 with
      | mk pf r =>
        rw [hres] at hloop
        dsimp only at hloop
        cases r with
        | error e => exact hloop
        | ok rows =>
          dsimp only
          have hpf1 : (lookupP pf k1).isSome := by
            rw [isSome_lookupP_iff_mem, hloop, ← isSome_lookupP_iff_mem]; exact hs1
          have hpf2 : (lookupP (dsetP pf k1 v1) k2).isSome := by
            rw [isSome_lookupP_iff_mem, keysOf_dsetP_of_isSome pf k1 v1 hpf1,
              hloop, ← isSome_lookupP_iff_mem]
            exact hs2
          rw [keysOf_dsetP_of_isSome _ k2 v2 hpf2,
            keysOf_dsetP_of_isSome pf k1 v1 hpf1, hloop]

/-- C9: `make_decision` (and the `calculate_*` helpers it invokes) performs
no assignment to `self.params`: the table after the call is the table
before it, and a second call made immediately after yields an identical
result triple. -/
theorem make_decision_no_mutation (p : Dict) :
    (make_decisionM p).1 = p ∧
      (make_decisionM ((make_decisionM p).1)).2 = (make_decisionM p).2 := by
  refine ⟨make_decisionM_fst p, ?_⟩
  rw [make_decisionM_fst]

/-- C10: the parameter table holds exactly the eight fixed keys after
construction, and `set_parameters`, `sensitivity_analysis`,
`two_way_analysis` and `make_decision` all preserve the key list exactly —
in particular `set_parameters` never inserts an unrecognized key. -/
theorem params_key_set_invariant (p : Dict) (kwargs : List (String × ℝ))
    (k k1 k2 : String) (values values1 values2 : List ℝ) :
    keysOf defaultParams =
      ["baseline_deaths", "vaccine_efficacy", "voluntary_adoption",
       "mandate_adoption", "value_of_life", "freedom_value",
       "enforcement_cost", "risk_aversion"] ∧
    keysOf (set_parameters p kwargs).1 = keysOf p ∧
    keysOf (sensitivity_analysis p k values).1 = keysOf p ∧
    keysOf (two_way_analysis p k1 values1 k2 values2).1 = keysOf p ∧
    (make_decisionM p).1 = p := by
  exact ⟨rfl, set_parameters_keysOf kwargs p,
    sensitivity_analysis_keysOf p k values,
    two_way_analysis_keysOf p k1 k2 values1 values2,
    make_decisionM_fst p⟩

/-- C5: a sweep entry point given an unrecognized parameter name fails hard
(the subscript read of the original value raises), before any mutation;
`two_way_analysis` fails this way when either of its two names is
unrecognized. -/
theorem sweep_unrecognized_fails (p : Dict) (name k1 k2 : String)
    (values values1 values2 : List ℝ)
    (h : lookupP p name = none)
    (h2 : lookupP p k1 = none ∨ lookupP p k2 = none) :
    sensitivity_analysis p name values = (p, .error .keyError) ∧
    two_way_analysis p k1 values1 k2 values2 = (p, .error .keyError) := by
  constructor
  · unfold sensitivity_analysis
    rw [h]
  · unfold two_way_analysis
    cases hk1 : lookupP p k1 with
    | none => rfl
    | some v1 =>
      rcases h2 with h2 | h2
      · rw [hk1] at h2; cases h2
      · rw [h2]

/-- C5 witness: a sweep over the unrecognized name `bogus` on the default
parameters fails with the `KeyError` and leaves the table untouched. -/
theorem sweep_unrecognized_fails_witness :
    sensitivity_analysis defaultParams "bogus" [1] =
      (defaultParams, .error .keyError) ∧
    two_way_analysis defaultParams "bogus" [1] "vaccine_efficacy" [2] =
      (defaultParams, .error .keyError) :=
  sweep_unrecognized_fails defaultParams "bogus" "bogus" "vaccine_efficacy"
    [1] [1] [2] (by simp [defaultParams, lookupP])
    (Or.inl (by simp [defaultParams, lookupP]))

/-- C1: `make_decision` computes both total utilities and returns the
Mandate recommendation (`true`) exactly when the mandate utility strictly
exceeds the voluntary utility; an exact tie resolves to Voluntary
(`false`); and the returned pair of utilities is
`calculate_total_utility true` and `calculate_total_utility false`. -/
theorem make_decision_spec (p : Dict) (uM uV : ℝ)
    (hM : calculate_total_utility p true = .ok (.real uM))
    (hV : calculate_total_utility p false = .ok (.real uV)) :
    (make_decisionM p).2 =
      .ok ((if uV < uM then true else false), .real uM, .real uV) ∧
    (uM = uV → (make_decisionM p).2 = .ok (false, .real uM, .real uV)) := by
  have hmain : (make_decisionM p).2 =
      .ok ((if uV < uM then true else false), .real uM, .real uV) := by
    unfold make_decisionM
    rw [hM, hV]
    dsimp only [pyGT]
    by_cases h : uV < uM <;> simp [h]
  refine ⟨hmain, fun he => ?_⟩
  rw [hmain, if_neg (by rw [he]; exact lt_irrefl uV)]

/-- C7 counterexample: with `baseline_deaths = 0` and every other parameter
at its default, adoption rate `1/2` lies strictly in `(0,1)` and the
efficacies `0 < 1/2` lie in `[0,1]`, yet expected deaths do not strictly
decrease as efficacy increases — the two evaluations are exactly equal. -/
theorem deaths_monotonicity_cex :
    calculate_deaths (dsetP zeroBaselineParams "vaccine_efficacy" (1/2)) (1/2) =
      calculate_deaths (dsetP zeroBaselineParams "vaccine_efficacy" 0) (1/2) ∧
    ¬ (calculate_deaths (dsetP zeroBaselineParams "vaccine_efficacy" (1/2)) (1/2) <
        calculate_deaths (dsetP zeroBaselineParams "vaccine_efficacy" 0) (1/2)) := by
  have hB : ∀ e : ℝ,
      pget (dsetP zeroBaselineParams "vaccine_efficacy" e) "baseline_deaths" = 0 := by
    intro e
    simp [pget, zeroBaselineParams, defaultParams, dsetP, lookupP]
  constructor
  · simp [calculate_deaths, hB]
  · simp [calculate_deaths, hB]

/-- C7 (amended): additionally assuming a positive `baseline_deaths`,
expected deaths are strictly decreasing in `vaccine_efficacy` for any
fixed adoption rate strictly between 0 and 1: for `0 ≤ e1 < e2 ≤ 1` the
deaths at efficacy `e2` are strictly below those at `e1`. -/
theorem calculate_deaths_strict_anti (p : Dict) (a e1 e2 : ℝ)
    (hB : 0 < pget p "baseline_deaths")
    (ha0 : 0 < a) (ha1 : a < 1)
    (he0 : 0 ≤ e1) (h12 : e1 < e2) (he2 : e2 ≤ 1) :
    calculate_deaths (dsetP p "vaccine_efficacy" e2) a <
      calculate_deaths (dsetP p "vaccine_efficacy" e1) a := by
  have hBkeep : ∀ e : ℝ,
      pget (dsetP p "vaccine_efficacy" e) "baseline_deaths" =
        pget p "baseline_deaths" := by
    intro e
    unfold pget
    rw [lookupP_dsetP_ne _ _ _ _ (by decide)]
  have hE : ∀ e : ℝ,
      pget (dsetP p "vaccine_efficacy" e) "vaccine_efficacy" = e := by
    intro e
    unfold pget
    rw [lookupP_dsetP_self]
    rfl
  simp only [calculate_deaths, hBkeep, hE]
  have hpos := mul_pos hB ha0
  nlinarith

/-- C7 witness: at the default parameters (`baseline_deaths = 1000`),
adoption `1/2` and efficacies `1/4 < 3/4`, deaths strictly decrease. -/
theorem calculate_deaths_strict_anti_witness :
    calculate_deaths (dsetP defaultParams "vaccine_efficacy" (3/4)) (1/2) <
      calculate_deaths (dsetP defaultParams "vaccine_efficacy" (1/4)) (1/2) :=
  calculate_deaths_strict_anti defaultParams (1/2) (1/4) (3/4)
    (by norm_num [pget, defaultParams, lookupP])
    (by norm_num) (by norm_num) (by norm_num) (by norm_num) (by norm_num)

theorem lookupP_set_parameters_not_mem (kwargs : List (String × ℝ)) :
    ∀ (p : Dict) (k : String), k ∉ kwargs.map Prod.fst →
      lookupP (set_parameters p kwargs).1 k = lookupP p k := by
  induction kwargs with
  | nil => intro p k _; rfl
  | cons kv rest ih =>
    intro p k hk
    obtain ⟨ka, va⟩ := kv
    simp only [List.map_cons, List.mem_cons] at hk
    push_neg at hk
    obtain ⟨hne, hrest⟩ := hk
    by_cases h : (lookupP p ka).isSome
    · simp only [set_parameters, if_pos h]
      rw [ih _ _ hrest, lookupP_dsetP_ne _ _ _ _ hne]
    · simp only [set_parameters, if_neg h]
      exact ih _ _ hrest

theorem isSome_lookupP_dsetP (p : Dict) (k ka : String) (v : ℝ)
    (h : (lookupP p ka).isSome) : (lookupP (dsetP p k v) ka).isSome := by
  by_cases hk : ka = k
  · subst hk; rw [lookupP_dsetP_self]; rfl
  · rw [lookupP_dsetP_ne _ _ _ _ hk]; exact h

theorem set_parameters_applies (kwargs : List (String × ℝ)) :
    ∀ p : Dict, (kwargs.map Prod.fst).Nodup →
      ∀ kv ∈ kwargs, (lookupP p kv.1).isSome →
        lookupP (set_parameters p kwargs).1 kv.1 = some kv.2 := by
  induction kwargs with
  | nil => intro p _ kv hkv; cases hkv
  | cons hd rest ih =>
    intro p hnd kv hkv hsome
    obtain ⟨ka, va⟩ := hd
    simp only [List.map_cons, List.nodup_cons] at hnd
    obtain ⟨hnotin, hndrest⟩ := hnd
    rcases List.mem_cons.mp hkv with rfl | hmem
    · simp only at hsome ⊢
      simp only [set_parameters, if_pos hsome]
      rw [lookupP_set_parameters_not_mem rest _ _ hnotin, lookupP_dsetP_self]
    · by_cases h : (lookupP p ka).isSome
      · simp only [set_parameters, if_pos h]
        exact ih (dsetP p ka va) hndrest kv hmem
          (isSome_lookupP_dsetP p ka kv.1 va hsome)
      · simp only [set_parameters, if_neg h]
        exact ih p hndrest kv hmem hsome

theorem set_parameters_warnings (kwargs : List (String × ℝ)) :
    ∀ p : Dict, (set_parameters p kwargs).2 =
      (kwargs.filter (fun kv => (lookupP p kv.1).isNone)).map Prod.fst := by
  induction kwargs with
  | nil => intro p; rfl
  | cons hd rest ih =>
    intro p
    obtain ⟨ka, va⟩ := hd
    by_cases h : (lookupP p ka).isSome
    · have hnone : ((lookupP p ka).isNone) = false := by
        cases hl : lookupP p ka <;> simp_all
      simp only [set_parameters, if_pos h, List.filter_cons]
      rw [ih (dsetP p ka va)]
      have hagree : ∀ kv ∈ rest,
          ((lookupP (dsetP p ka va) kv.1).isNone) = ((lookupP p kv.1).isNone) := by
        intro kv _
        by_cases hk : kv.1 = ka
        · rw [hk, lookupP_dsetP_self, hnone]; rfl
        · rw [lookupP_dsetP_ne _ _ _ _ hk]
      rw [List.filter_congr hagree, hnone]
      simp
    · have hnone : ((lookupP p ka).isNone) = true := by
        cases hl : lookupP p ka <;> simp_all
      simp only [set_parameters, if_neg h, List.filter_cons]
      rw [hnone]
      simp [ih p]

/-- C8: `set_parameters` overwrites each recognized key with the supplied
value; an unrecognized key only produces a warning (it is neither applied
nor inserted) and does not abort the remaining updates — every recognized
key in the mapping is still applied. -/
theorem set_parameters_spec (p : Dict) (kwargs : List (String × ℝ))
    (hnd : (kwargs.map Prod.fst).Nodup) :
    (∀ kv ∈ kwargs, (lookupP p kv.1).isSome →
        lookupP (set_parameters p kwargs).1 kv.1 = some kv.2) ∧
    (∀ kv ∈ kwargs, (lookupP p kv.1).isNone →
        lookupP (set_parameters p kwargs).1 kv.1 = none) ∧
    (set_parameters p kwargs).2 =
      (kwargs.filter (fun kv => (lookupP p kv.1).isNone)).map Prod.fst := by
  refine ⟨set_parameters_applies kwargs p hnd, ?_, set_parameters_warnings kwargs p⟩
  intro kv _ hkv
  have hkeys := set_parameters_keysOf kwargs p
  rw [← Option.not_isSome_iff_eq_none]
  rw [isSome_lookupP_iff_mem, hkeys, ← isSome_lookupP_iff_mem]
  intro hs
  rw [Option.isNone_iff_eq_none] at hkv
  rw [hkv] at hs
  cases hs

/-- The concrete update mapping used to witness C8: two recognized keys
around one unrecognized key. -/
noncomputable def kwargsW : List (String × ℝ) :=
  [("vaccine_efficacy", 0.5), ("bogus", 7), ("baseline_deaths", 500)]

/-- C8 witness: on the default parameters, the two recognized keys are
overwritten, the unrecognized `bogus` is not inserted, and exactly one
warning (for `bogus`) is recorded. -/
theorem set_parameters_spec_witness :
    lookupP (set_parameters defaultParams kwargsW).1 "vaccine_efficacy" = some 0.5 ∧
    lookupP (set_parameters defaultParams kwargsW).1 "baseline_deaths" = some 500 ∧
    lookupP (set_parameters defaultParams kwargsW).1 "bogus" = none ∧
    (set_parameters defaultParams kwargsW).2 = ["bogus"] := by
  have h := set_parameters_spec defaultParams kwargsW (by simp [kwargsW])
  refine ⟨h.1 ("vaccine_efficacy", 0.5) (by simp [kwargsW])
            (by simp [defaultParams, lookupP]),
          h.1 ("baseline_deaths", 500) (by simp [kwargsW])
            (by simp [defaultParams, lookupP]),
          h.2.1 ("bogus", 7) (by simp [kwargsW])
            (by simp [defaultParams, lookupP]),
          h.2.2.trans (by simp [kwargsW, defaultParams, lookupP])⟩

theorem sensLoop_state_shape (k : String) (values : List ℝ) :
    ∀ p : Dict, (sensLoop k p values).1 = p ∨
      ∃ v : ℝ, (sensLoop k p values).1 = dsetP p k v := by
  induction values with
  | nil => intro p; exact Or.inl rfl
  | cons v rest ih =>
    intro p
    simp only [sensLoop]
    rw [make_decisionM_eta (dsetP p k v)]
    cases (make_decisionM (dsetP p k v)).2 with
    | error e => exact Or.inr ⟨v, rfl⟩
    | ok r =>
      obtain ⟨d, um, uv⟩ := r
      dsimp only
      rcases ih (dsetP p k v) with h | ⟨w, h⟩
      · cases hres : sensLoop k (dsetP p k v) rest with
        | mk pf r2 =>
          rw [hres] at h
          dsimp only at h
          cases r2 with
          | error e => exact Or.inr ⟨v, h⟩
          | ok rows => exact Or.inr ⟨v, h⟩
      · cases hres : sensLoop k (dsetP p k v) rest with
        | mk pf r2 =>
          rw [hres] at h
          dsimp only at h
          rw [dsetP_dsetP_same] at h
          cases r2 with
          | error e => exact Or.inr ⟨w, h⟩
          | ok rows => exact Or.inr ⟨w, h⟩

theorem sensLoop_snd_absorb (k : String) (values : List ℝ) (p : Dict) (x : ℝ) :
    (sensLoop k (dsetP p k x) values).2 = (sensLoop k p values).2 := by
  cases values with
  | nil => rfl
  | cons v rest =>
    simp only [sensLoop]
    rw [dsetP_dsetP_same]

theorem sensitivity_analysis_snd (p : Dict) (k : String) (v0 : ℝ)
    (values : List ℝ) (h : lookupP p k = some v0) :
    (sensitivity_analysis p k values).2 = (sensLoop k p values).2 := by
  unfold sensitivity_analysis
  rw [h]
  cases hres : sensLoop k p values with
  | mk pf r => cases r <;> rfl

/-- C2: after a normally-returning sweep over a recognized parameter the
whole parameter table equals its pre-call value — in particular
`params[parameter]` does, restored exactly once at the end; and the
recorded result depends only on the value freshly set in each iteration,
not on the parameter's prior value (intermediate iterations observe the
most recently set value). -/
theorem sensitivity_analysis_restores (p : Dict) (k : String) (v0 : ℝ)
    (values : List ℝ) (rows : List SensRow)
    (h0 : lookupP p k = some v0)
    (hok : (sensitivity_analysis p k values).2 = .ok rows) :
    (sensitivity_analysis p k values).1 = p ∧
    lookupP (sensitivity_analysis p k values).1 k = some v0 ∧
    ∀ x : ℝ, (sensitivity_analysis (dsetP p k x) k values).2 =
      (sensitivity_analysis p k values).2 := by
  have hfst : (sensitivity_analysis p k values).1 = p := by
    unfold sensitivity_analysis at hok ⊢
    rw [h0] at hok ⊢
    dsimp only at hok ⊢
    cases hres : sensLoop k p values with
    | mk pf r =>
      rw [hres] at hok
      cases r with
      | error e => simp at hok
      | ok rows2 =>
        dsimp only
        rcases sensLoop_state_shape k values p with h | ⟨w, h⟩
        · rw [hres] at h
          dsimp only at h
          rw [h]
          exact dsetP_self_of_lookupP p k v0 h0
        · rw [hres] at h
          dsimp only at h
          rw [h, dsetP_dsetP_same]
          exact dsetP_self_of_lookupP p k v0 h0
  refine ⟨hfst, by rw [hfst]; exact h0, ?_⟩
  intro x
  rw [sensitivity_analysis_snd p k v0 values h0,
    sensitivity_analysis_snd (dsetP p k x) k x values (lookupP_dsetP_self p k x),
    sensLoop_snd_absorb]

/-- C2 witness: the empty sweep (explicitly covered by the claim) over
`vaccine_efficacy` on the default parameters returns normally and leaves
the table exactly as before the call. -/
theorem sensitivity_analysis_restores_witness :
    (sensitivity_analysis defaultParams "vaccine_efficacy" []).1 = defaultParams ∧
    lookupP (sensitivity_analysis defaultParams "vaccine_efficacy" []).1
      "vaccine_efficacy" = some 0.9 := by
  have h := sensitivity_analysis_restores defaultParams "vaccine_efficacy" 0.9 [] []
    (by simp [defaultParams, lookupP]) rfl
  exact ⟨h.1, h.2.1⟩

theorem twoInner_pairs (k1 k2 : String) (a : ℝ) (values2 : List ℝ) :
    ∀ (p : Dict) (rows : List TwoWayRow),
      (twoInner k1 k2 a p values2).2 = .ok rows →
      rows.map (fun r => (r.value1, r.value2)) = values2.map (fun b => (a, b)) := by
  induction values2 with
  | nil =>
    intro p rows h
    dsimp only [twoInner] at h
    injection h with h2
    subst h2
    rfl
  | cons b rest ih =>
    intro p rows h
    simp only [twoInner] at h
    rw [make_decisionM_eta (dsetP (dsetP p k1 a) k2 b)] at h
    cases hmd : (make_decisionM (dsetP (dsetP p k1 a) k2 b)).2 with
    | error e => rw [hmd] at h; simp at h
    | ok r =>
      obtain ⟨d, um, uv⟩ := r
      rw [hmd] at h
      dsimp only at h
      cases hres : twoInner k1 k2 a (dsetP (dsetP p k1 a) k2 b) rest with
      | mk pf r2 =>
        rw [hres] at h
        cases r2 with
        | error e => simp at h
        | ok rows1 =>
          try dsimp only at h
          injection h with h2
          subst h2
          have hin : (twoInner k1 k2 a (dsetP (dsetP p k1 a) k2 b) rest).2 =
              .ok rows1 := by rw [hres]
          simp only [List.map_cons]
          rw [ih _ rows1 hin]

theorem twoOuter_pairs (k1 k2 : String) (values2 : List ℝ) (values1 : List ℝ) :
    ∀ (p : Dict) (rows : List TwoWayRow),
      (twoOuter k1 k2 values2 p values1).2 = .ok rows →
      rows.map (fun r => (r.value1, r.value2)) =
        values1.flatMap (fun a => values2.map (fun b => (a, b))) := by
  induction values1 with
  | nil =>
    intro p rows h
    dsimp only [twoOuter] at h
    injection h with h2
    subst h2
    rfl
  | cons a rest ih =>
    intro p rows h
    simp only [twoOuter] at h
    cases hres : twoInner k1 k2 a p values2 with
    | mk p2 r1 =>
      rw [hres] at h
      cases r1 with
      | error e => simp at h
      | ok rows1 =>
        try dsimp only at h
        cases hres2 : twoOuter k1 k2 values2 p2 rest with
        | mk pf r2 =>
          rw [hres2] at h
          cases r2 with
          | error e => simp at h
          | ok rows2 =>
            try dsimp only at h
            injection h with h2
            subst h2
            have hin : (twoInner k1 k2 a p values2).2 = .ok rows1 := by rw [hres]
            have hout : (twoOuter k1 k2 values2 p2 rest).2 = .ok rows2 := by
              rw [hres2]
            rw [List.map_append, twoInner_pairs k1 k2 a values2 p rows1 hin,
              ih p2 rows2 hout]
            simp

theorem length_bind_pairs (values1 values2 : List ℝ) :
    (values1.flatMap (fun a => values2.map (fun b => ((a : ℝ), b)))).length =
      values1.length * values2.length := by
  induction values1 with
  | nil => simp
  | cons a rest ih =>
    simp only [List.flatMap_cons, List.length_append, List.length_map, ih,
      List.length_cons]
    ring

/-- C6: a normally-returning two-way sweep over recognized names produces
exactly `len(values1) * len(values2)` rows — one per element of the
cartesian product, in outer-`values1` / inner-`values2` order — and after
returning both swept parameters equal their pre-call values. -/
theorem two_way_analysis_spec (p : Dict) (k1 k2 : String) (v1 v2 : ℝ)
    (values1 values2 : List ℝ) (rows : List TwoWayRow)
    (h1 : lookupP p k1 = some v1) (h2 : lookupP p k2 = some v2)
    (hok : (two_way_analysis p k1 values1 k2 values2).2 = .ok rows) :
    rows.length = values1.length * values2.length ∧
    rows.map (fun r => (r.value1, r.value2)) =
      values1.flatMap (fun a => values2.map (fun b => (a, b))) ∧
    lookupP (two_way_analysis p k1 values1 k2 values2).1 k1 = some v1 ∧
    lookupP (two_way_analysis p k1 values1 k2 values2).1 k2 = some v2 := by
  unfold two_way_analysis at hok ⊢
  rw [h1, h2] at hok ⊢
  dsimp only at hok ⊢
  cases hres : twoOuter k1 k2 values2 p values1 with
  | mk pf r =>
    rw [hres] at hok
    cases r with
    | error e => simp at hok
    | ok rows0 =>
      try dsimp only at hok ⊢
      injection hok with hrows
      subst hrows
      have hpairs := twoOuter_pairs k1 k2 values2 values1 p rows0 (by rw [hres])
      refine ⟨?_, hpairs, ?_, ?_⟩
      · have hlen := congrArg List.length hpairs
        simp only [List.length_map] at hlen
        rw [hlen, length_bind_pairs]
      · by_cases hk : k1 = k2
        · subst hk
          rw [h1] at h2
          injection h2 with hv
          subst hv
          rw [dsetP_dsetP_same, lookupP_dsetP_self]
        · rw [lookupP_dsetP_ne _ _ _ _ hk, lookupP_dsetP_self]
      · rw [lookupP_dsetP_self]

/-- C6 witness: the empty two-way sweep over `vaccine_efficacy` and
`freedom_value` on the default parameters returns `0 * 0` rows and both
parameters keep their pre-call values. -/
theorem two_way_analysis_spec_witness :
    lookupP (two_way_analysis defaultParams "vaccine_efficacy" []
      "freedom_value" []).1 "vaccine_efficacy" = some 0.9 ∧
    lookupP (two_way_analysis defaultParams "vaccine_efficacy" []
      "freedom_value" []).1 "freedom_value" = some 400000000 := by
  have h := two_way_analysis_spec defaultParams "vaccine_efficacy" "freedom_value"
    0.9 400000000 [] [] []
    (by simp [defaultParams, lookupP]) (by simp [defaultParams, lookupP]) rfl
  exact ⟨h.2.2.1, h.2.2.2⟩

theorem except_bind_ok {α β : Type} (a : α) (f : α → Except PyErr β) :
    (Except.ok a >>= f) = f a := rfl

theorem except_pure_eq_ok {α : Type} (a : α) :
    (pure a : Except PyErr α) = Except.ok a := rfl

theorem except_throw_eq_error {α : Type} (e : PyErr) :
    (throw e : Except PyErr α) = Except.error e := rfl

theorem not_isIntR_nine_tenths : ¬ isIntR (0.9 : ℝ) := by
  rintro ⟨n, hn⟩
  have h10 : ((n : ℝ)) * 10 = 9 := by rw [hn]; norm_num
  have hz : (n * 10 : ℤ) = 9 := by exact_mod_cast h10
  omega

theorem pyPow_of_nonneg (a b : ℝ) (ha : 0 ≤ a) (hb : 0 ≤ b) :
    pyPow a b = .ok (.real (a ^ b)) := by
  have h1 : ¬(a = 0 ∧ b < 0) := by
    rintro ⟨_, hb2⟩; exact absurd hb2 (not_lt.mpr hb)
  have h2 : ¬(a < 0 ∧ ¬ isIntR b) := by
    rintro ⟨ha2, _⟩; exact absurd ha2 (not_lt.mpr ha)
  unfold pyPow
  rw [if_neg h1, if_neg h2]

theorem pyPow_neg_frac (a b : ℝ) (ha : a < 0) (hb : ¬ isIntR b) :
    pyPow a b = .ok (.cplx ((a : ℂ) ^ (b : ℂ))) := by
  have h1 : ¬(a = 0 ∧ b < 0) := by
    rintro ⟨ha2, _⟩
    rw [ha2] at ha
    exact absurd ha (lt_irrefl 0)
  unfold pyPow
  rw [if_neg h1, if_pos ⟨ha, hb⟩]

theorem life_utility_cplx (p : Dict) (b : Bool)
    (h : (if b then calculate_lives_saved p (pget p "mandate_adoption")
          else calculate_lives_saved p (pget p "voluntary_adoption")) < 0) :
    calculate_life_utility p b =
      .ok (.cplx
        ((((if b then calculate_lives_saved p (pget p "mandate_adoption")
            else calculate_lives_saved p (pget p "voluntary_adoption")) : ℝ) : ℂ)
          ^ ((0.9 : ℝ) : ℂ) * ((pget p "value_of_life" : ℝ) : ℂ))) := by
  unfold calculate_life_utility
  dsimp only
  rw [pyPow_neg_frac _ _ h not_isIntR_nine_tenths]
  simp [PyNum.mulR, except_bind_ok, except_pure_eq_ok]

theorem total_utility_typeError (p : Dict) (b : Bool)
    (h : (if b then calculate_lives_saved p (pget p "mandate_adoption")
          else calculate_lives_saved p (pget p "voluntary_adoption")) < 0) :
    calculate_total_utility p b = .error .typeError := by
  unfold calculate_total_utility
  rw [life_utility_cplx p b h]
  simp [PyNum.addR, except_bind_ok, except_throw_eq_error]

theorem tie_lives_saved (a : ℝ) : calculate_lives_saved tieParams a = 0 := by
  have hB : pget tieParams "baseline_deaths" = 1000 := by
    simp [pget, tieParams, lookupP]
  have hE : pget tieParams "vaccine_efficacy" = 0 := by
    simp [pget, tieParams, lookupP]
  simp only [calculate_lives_saved, calculate_deaths, hB, hE]
  ring

theorem tie_total_utility (b : Bool) :
    calculate_total_utility tieParams b = .ok (.real 0) := by
  have hV : pget tieParams "value_of_life" = 10000000 := by
    simp [pget, tieParams, lookupP]
  have hF : pget tieParams "freedom_value" = 0 := by
    simp [pget, tieParams, lookupP]
  have hC : pget tieParams "enforcement_cost" = 0 := by
    simp [pget, tieParams, lookupP]
  have hR : pget tieParams "risk_aversion" = 1 := by
    have h10 : pget tieParams "risk_aversion" = 1.0 := rfl
    rw [h10]
    norm_num
  have hlife : calculate_life_utility tieParams b = .ok (.real 0) := by
    unfold calculate_life_utility
    cases b <;>
      simp [tie_lives_saved, pyPow_of_nonneg 0 0.9 le_rfl (by norm_num),
        Real.zero_rpow (by norm_num : (0.9 : ℝ) ≠ 0), except_bind_ok,
        except_pure_eq_ok, PyNum.mulR]
  have hfreedom : calculate_freedom_utility tieParams b = 0 := by
    cases b <;> simp [calculate_freedom_utility, hF]
  have henf : calculate_enforcement_costs tieParams b = 0 := by
    cases b <;> simp [calculate_enforcement_costs, hC]
  unfold calculate_total_utility
  rw [hlife]
  simp only [except_bind_ok, hfreedom, henf, PyNum.addR, add_zero]
  rw [if_pos le_rfl, hR, pyPow_of_nonneg 0 1 le_rfl zero_le_one,
    Real.rpow_one]

/-- C1 witness: parameters making the two utilities tie exactly at `0`
(zero efficacy, zero freedom value, zero enforcement cost) resolve to
Voluntary (`false`) while returning both utilities. -/
theorem make_decision_spec_witness :
    (make_decisionM tieParams).2 = .ok (false, .real 0, .real 0) :=
  (make_decision_spec tieParams 0 0 (tie_total_utility true)
    (tie_total_utility false)).2 rfl

/-- C3 (code bug): when an individual `decide()` evaluation fails partway
through a sweep, the swept parameter is NOT restored — there is no
`try/finally` around the loop.  The sweep of `vaccine_efficacy` over
`[-1]` on the default parameters raises `TypeError` (negative lives saved
make the utility complex, and `total >= 0` then fails) and leaves
`vaccine_efficacy` at `-1`, not at its original `0.9`. -/
theorem failed_sweep_leaves_mutation :
    (sensitivity_analysis defaultParams "vaccine_efficacy" [-1]).2 =
      .error .typeError ∧
    lookupP (sensitivity_analysis defaultParams "vaccine_efficacy" [-1]).1
      "vaccine_efficacy" = some (-1) ∧
    lookupP defaultParams "vaccine_efficacy" = some 0.9 ∧
    (-1 : ℝ) ≠ 0.9 := by
  have hB : pget (dsetP defaultParams "vaccine_efficacy" (-1))
      "baseline_deaths" = 1000 := rfl
  have hM : pget (dsetP defaultParams "vaccine_efficacy" (-1))
      "mandate_adoption" = 0.9 := rfl
  have hE : pget (dsetP defaultParams "vaccine_efficacy" (-1))
      "vaccine_efficacy" = -1 := rfl
  have hls : calculate_lives_saved (dsetP defaultParams "vaccine_efficacy" (-1))
      (pget (dsetP defaultParams "vaccine_efficacy" (-1)) "mandate_adoption") =
        -900 := by
    simp only [calculate_lives_saved, calculate_deaths, hB, hM, hE]
    norm_num
  have herr : calculate_total_utility
      (dsetP defaultParams "vaccine_efficacy" (-1)) true = .error .typeError := by
    apply total_utility_typeError
    rw [if_pos rfl, hls]
    norm_num
  have hmd : make_decisionM (dsetP defaultParams "vaccine_efficacy" (-1)) =
      (dsetP defaultParams "vaccine_efficacy" (-1), .error .typeError) := by
    unfold make_decisionM
    rw [herr]
  have hl : lookupP defaultParams "vaccine_efficacy" = some 0.9 := by
    simp [defaultParams, lookupP]
  have hsens : sensitivity_analysis defaultParams "vaccine_efficacy" [-1] =
      (dsetP defaultParams "vaccine_efficacy" (-1), .error .typeError) := by
    unfold sensitivity_analysis sensLoop
    rw [hl]
    dsimp only
    rw [hmd]
  refine ⟨?_, ?_, hl, by norm_num⟩
  · rw [hsens]
  · rw [hsens]
    exact lookupP_dsetP_self defaultParams "vaccine_efficacy" (-1)

/-- C4 (code bug): with efficacy `-0.5` the selected (voluntary) lives-saved
value is `-300 < 0`, and `calculate_life_utility` silently returns a
complex number wrapped in `Except.ok` — it signals no error of any kind,
in particular no distinct UndefinedUtility error. -/
theorem life_utility_silently_complex :
    calculate_lives_saved negEffParams (pget negEffParams "voluntary_adoption") =
      -300 ∧
    (∃ z : ℂ, calculate_life_utility negEffParams false = .ok (.cplx z)) ∧
    (∀ e : PyErr, calculate_life_utility negEffParams false ≠ .error e) := by
  have hB4 : pget negEffParams "baseline_deaths" = 1000 := rfl
  have hV4 : pget negEffParams "voluntary_adoption" = 0.6 := rfl
  have hE4 : pget negEffParams "vaccine_efficacy" = -0.5 := rfl
  have hls : calculate_lives_saved negEffParams
      (pget negEffParams "voluntary_adoption") = -300 := by
    simp only [calculate_lives_saved, calculate_deaths, hB4, hV4, hE4]
    norm_num
  have hcond : (if (false : Bool) = true then
      calculate_lives_saved negEffParams (pget negEffParams "mandate_adoption")
    else calculate_lives_saved negEffParams
      (pget negEffParams "voluntary_adoption")) = -300 := by
    rw [if_neg (by simp), hls]
  have hlife := life_utility_cplx negEffParams false (by rw [hcond]; norm_num)
  refine ⟨hls, ⟨_, hlife⟩, ?_⟩
  intro e hcontra
  rw [hlife] at hcontra
  exact Except.noConfusion hcontra

end VaccineMandateModel
